import Mathlib

/-!
# Student Academic Helper — verified core

A shallow embedding of the data model and business logic of
`academic_helper.py`: identifier allocation, course find-or-create,
assignment validation and creation, deadline-sorted listing, grade
aggregation, and whole-state JSON persistence with corruption fallback.
Interactive prompting loops are embedded as explicit state-passing
functions over the raw inputs of one attempt; Python floats are embedded
as rationals; the JSON file medium is embedded as
`Option (Option Json)` (`none` = no file, `some none` = unreadable or
unparseable content, `some (some j)` = content parsing to the value `j`).
-/

namespace AcademicHelper

/-- A course record: `{"id": ..., "name": ...}`. -/
structure Course where
  id : Int
  name : String
deriving Repr, DecidableEq

/-- An assignment record, with the fields written by `add_assignment_flow`.
Scores (Python floats) are embedded as rationals; `score = none` embeds
Python `None`. -/
structure Assignment where
  id : Int
  course_id : Int
  title : String
  due_date : String
  status : String
  score : Option ℚ
  created_at : String
deriving Repr, DecidableEq

/-- The in-memory state: the two collections of the data dict. -/
structure AppState where
  courses : List Course
  assignments : List Assignment
deriving Repr, DecidableEq

/-! ## Record store: identifier allocation (`_next_id`) -/

/-- Python `max(seq, default=0)` on a list of ints. -/
def maxDefaultZero (ids : List Int) : Int :=
  match ids with
  | [] => 0
  | x :: xs => xs.foldl max x

/-- Embeds `_next_id`: `max((int(x["id"]) for x in items), default=0) + 1`. -/
def nextId (ids : List Int) : Int :=
  maxDefaultZero ids + 1

/-! ## Python string primitives

`str.strip()` and `str.lower()` are embedded at the character-list level
(structural recursion, so concrete instances evaluate inside proofs). -/

/-- Python `str.strip()` on a character list: drop leading and trailing
whitespace. -/
def stripChars (cs : List Char) : List Char :=
  ((cs.dropWhile Char.isWhitespace).reverse.dropWhile Char.isWhitespace).reverse

/-- Python `s.strip()`. -/
def pyStrip (s : String) : String := String.mk (stripChars s.toList)

/-- Python `s.lower()` (ASCII case folding). -/
def pyLower (s : String) : String := String.mk (s.toList.map Char.toLower)

/-! ## Course registry -/

/-- The normalization used by `_find_course_by_name`:
`name.strip().lower()`. -/
def normName (s : String) : String := pyLower (pyStrip s)

/-- Embeds `_find_course_by_name`: first course whose normalized name matches the
normalized input. -/
def findCourseByName (data : AppState) (name : String) : Option Course :=
  let nameNorm := normName name
  data.courses.find? (fun c => normName c.name == nameNorm)

/-- The create-a-new-course branch of `choose_or_create_course`
(lines 250–263): trims the entered name, refuses an empty one (the UI
re-prompts; embedded as `none`), reuses an existing course with the same
normalized name without saving, and otherwise allocates an id, appends
the course and saves.  The result carries the chosen course, the updated
state, and what (if anything) was written to the durable store. -/
def chooseOrCreateCourse (data : AppState) (rawName : String) :
    Option (Course × AppState × Option AppState) :=
  let name := pyStrip rawName
  if name = "" then none
  else
    match findCourseByName data name with
    | some existing => some (existing, data, none)
    | none =>
      let courseId := nextId (data.courses.map Course.id)
      let newCourse : Course := { id := courseId, name := name }
      let data' : AppState := { data with courses := data.courses ++ [newCourse] }
      some (newCourse, data', some data')

/-! ## Calendar dates and `_parse_date_yyyy_mm_dd`

`datetime.strptime(s.strip(), "%Y-%m-%d").date()`: `%Y` matches exactly
four digits, `%m` and `%d` one or two digits, the whole (stripped) string
must be consumed, and the resulting `(year, month, day)` must be a real
calendar date with `1 ≤ year ≤ 9999` (the `datetime` constructor's
range), otherwise `ValueError` — embedded as `none`. -/

structure CalDate where
  y : Nat
  m : Nat
  d : Nat
deriving Repr, DecidableEq

/-- The value `datetime.date.max` = `date(9999, 12, 31)`. -/
def dateMax : CalDate := ⟨9999, 12, 31⟩

/-- Split a character list on `'-'` (the literal separators of the
`"%Y-%m-%d"` format). -/
def splitDash : List Char → List (List Char)
  | [] => [[]]
  | c :: rest =>
    match splitDash rest with
    | [] => [[]]
    | g :: gs => if c = '-' then [] :: g :: gs else (c :: g) :: gs

/-- Python `int(s)` on a list of decimal digits. -/
def digitsToNat (cs : List Char) : Nat :=
  cs.foldl (fun n c => n * 10 + (c.toNat - 48)) 0

/-- Gregorian leap-year rule used by `datetime`. -/
def isLeapYear (y : Nat) : Bool :=
  (y % 4 == 0 && y % 100 != 0) || y % 400 == 0

/-- Days in a month, as validated by the `datetime` constructor. -/
def daysInMonth (y m : Nat) : Nat :=
  if m == 2 then (if isLeapYear y then 29 else 28)
  else if m == 4 || m == 6 || m == 9 || m == 11 then 30
  else 31

/-- Embeds `_parse_date_yyyy_mm_dd`: strip, split on `-` into exactly
year/month/day digit groups of the widths `strptime` accepts, then apply
the `datetime` range checks. -/
def parseDateYMD (s : String) : Option CalDate :=
  match splitDash (stripChars s.toList) with
  | [ys, ms, ds] =>
    if ys.length == 4 && ys.all Char.isDigit
        && (1 ≤ ms.length && ms.length ≤ 2) && ms.all Char.isDigit
        && (1 ≤ ds.length && ds.length ≤ 2) && ds.all Char.isDigit then
      let y := digitsToNat ys
      let m := digitsToNat ms
      let d := digitsToNat ds
      if (1 ≤ y && y ≤ 9999) && (1 ≤ m && m ≤ 12)
          && (1 ≤ d && d ≤ daysInMonth y m) then
        some ⟨y, m, d⟩
      else none
    else none
  | _ => none

/-- Zero-padded two-digit rendering (months and days are below 100). -/
def pad2Chars (n : Nat) : List Char :=
  [Char.ofNat (48 + n / 10 % 10), Char.ofNat (48 + n % 10)]

/-- Zero-padded four-digit rendering (years are below 10000). -/
def pad4Chars (n : Nat) : List Char :=
  [Char.ofNat (48 + n / 1000 % 10), Char.ofNat (48 + n / 100 % 10),
   Char.ofNat (48 + n / 10 % 10), Char.ofNat (48 + n % 10)]

/-- Python `date.isoformat()`: `YYYY-MM-DD`, zero-padded. -/
def isoDate (d : CalDate) : String :=
  String.mk (pad4Chars d.y ++ '-' :: pad2Chars d.m ++ '-' :: pad2Chars d.d)

/-! ## Assignment catalog: validation and creation -/

/-- The status strings offered by `choose_status`. -/
def statusOptions : List String := ["Not Started", "In Progress", "Completed"]

/-- The acceptance test of `choose_optional_score`: absent is accepted;
a number is accepted iff `0.0 <= val <= 100.0`. -/
def scoreOk : Option ℚ → Bool
  | none => true
  | some v => decide (0 ≤ v) && decide (v ≤ 100)

/-- The validation errors of one assignment-creation attempt, in the
order the flow checks them. -/
inductive CreateError where
  | missingTitle
  | invalidDate
  | invalidStatus
  | scoreOutOfRange
deriving Repr, DecidableEq

/-- One attempt of `add_assignment_flow` after a course has been chosen,
over the raw inputs: trims the title and rejects an empty one
(lines 159–162), parses the due date, checks the status is one of the
menu options and the score passes `choose_optional_score`; only then
allocates an id, builds the record, appends it and saves
(lines 197–207).  Returns the outcome, the resulting state, and what (if
anything) was written to the durable store. -/
def addAssignment (data : AppState) (course : Course) (rawTitle : String)
    (dueInput : String) (status : String) (score : Option ℚ)
    (now : String) : Except CreateError Assignment × AppState × Option AppState :=
  let title := pyStrip rawTitle
  if title = "" then (.error .missingTitle, data, none)
  else
    match parseDateYMD dueInput with
    | none => (.error .invalidDate, data, none)
    | some due =>
      if status ∉ statusOptions then (.error .invalidStatus, data, none)
      else if !scoreOk score then (.error .scoreOutOfRange, data, none)
      else
        let assignmentId := nextId (data.assignments.map Assignment.id)
        let a : Assignment :=
          { id := assignmentId
            course_id := course.id
            title := title
            due_date := isoDate due
            status := status
            score := score
            created_at := now }
        let data' : AppState := { data with assignments := data.assignments ++ [a] }
        (.ok a, data', some data')

/-! ## Deadline-sorted listing (`list_assignments_sorted`) -/

/-- The date component of the sort key: the parsed due date, or
`date.max` when parsing raises `ValueError`. -/
def sortDate (a : Assignment) : CalDate :=
  (parseDateYMD a.due_date).getD dateMax

/-- Strict ordering of `datetime.date` values: lexicographic on
`(year, month, day)`. -/
def dateLt (a b : CalDate) : Prop :=
  a.y < b.y ∨ (a.y = b.y ∧ (a.m < b.m ∨ (a.m = b.m ∧ a.d < b.d)))

instance : DecidableRel dateLt := fun a b => by
  unfold dateLt; infer_instance

/-- Python tuple comparison on the sort key
`(parsed due date or date.max, id)`: non-strict. -/
def keyLe (a b : Assignment) : Prop :=
  dateLt (sortDate a) (sortDate b) ∨
    (sortDate a = sortDate b ∧ a.id ≤ b.id)

/-- Strict version of `keyLe`. -/
def keyLt (a b : Assignment) : Prop :=
  dateLt (sortDate a) (sortDate b) ∨
    (sortDate a = sortDate b ∧ a.id < b.id)

instance : DecidableRel keyLe := fun a b => by
  unfold keyLe; infer_instance

instance : DecidableRel keyLt := fun a b => by
  unfold keyLt; infer_instance

instance : IsTotal Assignment keyLe where
  total a b := by
    unfold keyLe dateLt
    rcases a with ⟨_, _, _, da, _, _, _⟩
    rcases b with ⟨_, _, _, db, _, _, _⟩
    rcases sortDate _ with ⟨y₁, m₁, d₁⟩
    rcases sortDate _ with ⟨y₂, m₂, d₂⟩
    simp only [CalDate.mk.injEq]
    omega

instance : IsTrans Assignment keyLe where
  trans a b c := by
    unfold keyLe dateLt
    rcases sortDate a with ⟨y₁, m₁, d₁⟩
    rcases sortDate b with ⟨y₂, m₂, d₂⟩
    rcases sortDate c with ⟨y₃, m₃, d₃⟩
    simp only [CalDate.mk.injEq]
    omega

/-- The filter applied when `only_incomplete` is true: keep records whose
status is not `"Completed"`. -/
def filterItems (items : List Assignment) (only_incomplete : Bool) :
    List Assignment :=
  if only_incomplete then items.filter (fun a => a.status != "Completed")
  else items

/-- Embeds `list_assignments_sorted`: filter, then stable-sort by
`(due date or date.max, id)`.  Python's `sorted` is a stable sort by this
key; a stable sort by a total preorder is unique, so `insertionSort` with
`keyLe` computes the same list. -/
def listAssignmentsSorted (data : AppState) (only_incomplete : Bool) :
    List Assignment :=
  (filterItems data.assignments only_incomplete).insertionSort keyLe

/-! ## Grade calculator (`current_grade_flow`) -/

/-- The selection of `current_grade_flow`: assignments of the chosen
course that have a recorded score. -/
def scoredFor (data : AppState) (course : Course) : List Assignment :=
  data.assignments.filter
    (fun a => a.course_id == course.id && a.score.isSome)

/-- The computation of `current_grade_flow` after a course is picked: the
list of recorded scores and their arithmetic mean, or `none` ("No scores
recorded for this course yet") when the selection is empty.  The flow
only reads the state, so it is returned unchanged. -/
def currentGradeFlow (data : AppState) (course : Course) :
    Option (List ℚ × ℚ) × AppState :=
  let scored := scoredFor data course
  if scored.isEmpty then (none, data)
  else
    let scores := scored.filterMap Assignment.score
    (some (scores, scores.sum / (scores.length : ℚ)), data)

/-! ## Persistence gateway (`_load_data` / `_save_data`)

The durable medium is embedded as `Option (Option Json)`: `none` = the
file does not exist; `some none` = the file exists but reading or JSON
parsing fails (`OSError` / `json.JSONDecodeError`); `some (some j)` =
the content parses to the JSON value `j`.  `json.dump` followed by
`json.load` reproduces the dumped value (the json library's contract),
so `_save_data` is embedded at the value level. -/

inductive Json where
  | null
  | bool (b : Bool)
  | num (q : ℚ)
  | str (s : String)
  | arr (elems : List Json)
  | obj (fields : List (String × Json))
deriving Repr

/-- Python `dict.__contains__` on an assoc list (parsed JSON objects
have unique keys). -/
def containsKey (k : String) (fields : List (String × Json)) : Bool :=
  fields.any (fun kv => kv.1 == k)

/-- Python `dict.setdefault(k, v)`: keep an existing entry, otherwise
add `(k, v)`. -/
def setdefault (k : String) (v : Json) (fields : List (String × Json)) :
    List (String × Json) :=
  if containsKey k fields then fields else fields ++ [(k, v)]

/-- Python `dict.get(k)` on an assoc list. -/
def lookupKey (k : String) (fields : List (String × Json)) : Option Json :=
  (fields.find? (fun kv => kv.1 == k)).map (fun kv => kv.2)

/-- The empty state literal returned by `_load_data`. -/
def emptyStateJson : Json :=
  .obj [("courses", .arr []), ("assignments", .arr [])]

/-- Embeds `_load_data`: no file → empty state; unreadable/unparseable → empty
state (the `except` clause); content parsing to a dict → that dict with
`courses` and `assignments` defaulted to `[]`; content parsing to any
non-dict JSON value → an uncaught `AttributeError` on `.setdefault`,
embedded as `Except.error`. -/
def loadData (file : Option (Option Json)) : Except String Json :=
  match file with
  | none => .ok emptyStateJson
  | some none => .ok emptyStateJson
  | some (some j) =>
    match j with
    | .obj fields =>
      .ok (.obj (setdefault "assignments" (.arr [])
                  (setdefault "courses" (.arr []) fields)))
    | _ => .error "AttributeError"

/-- Embeds `_save_data`: serialize the state as one unit, overwriting the
previous durable content.  At the value level the medium now holds
exactly the saved value. -/
def saveData (j : Json) : Option (Option Json) :=
  some (some j)

/-! ## Encoding the typed state as its JSON shape -/

/-- The JSON shape of a course record. -/
def encodeCourse (c : Course) : Json :=
  .obj [("id", .num (c.id : ℚ)), ("name", .str c.name)]

/-- The JSON shape of an assignment record, as written by
`add_assignment_flow` (`score` is `null` when absent). -/
def encodeAssignment (a : Assignment) : Json :=
  .obj [("id", .num (a.id : ℚ)), ("course_id", .num (a.course_id : ℚ)),
        ("title", .str a.title), ("due_date", .str a.due_date),
        ("status", .str a.status),
        ("score", match a.score with | none => .null | some v => .num v),
        ("created_at", .str a.created_at)]

/-- The JSON shape of the whole state. -/
def encodeState (st : AppState) : Json :=
  .obj [("courses", .arr (st.courses.map encodeCourse)),
        ("assignments", .arr (st.assignments.map encodeAssignment))]

/-! ## Lemmas about identifier allocation -/

theorem le_foldl_max (xs : List Int) (x : Int) : x ≤ xs.foldl max x := by
  induction xs generalizing x with
  | nil => exact le_refl x
  | cons y ys ih =>
    exact le_trans (le_max_left x y) (ih (max x y))

theorem mem_le_foldl_max (xs : List Int) (x : Int) :
    ∀ i ∈ xs, i ≤ xs.foldl max x := by
  induction xs generalizing x with
  | nil => intro i hi; cases hi
  | cons y ys ih =>
    intro i hi
    rcases List.mem_cons.mp hi with rfl | hi
    · exact le_trans (le_max_right x i) (le_foldl_max ys _)
    · exact ih _ i hi

theorem foldl_max_mem (xs : List Int) (x : Int) :
    xs.foldl max x = x ∨ xs.foldl max x ∈ xs := by
  induction xs generalizing x with
  | nil => left; rfl
  | cons y ys ih =>
    simp only [List.foldl_cons, List.mem_cons]
    rcases ih (max x y) with h | h
    · rcases max_choice x y with hm | hm
      · left; rw [h, hm]
      · right; left; rw [h, hm]
    · right; right; exact h

theorem maxDefaultZero_mem (ids : List Int) (h : ids ≠ []) :
    maxDefaultZero ids ∈ ids := by
  match ids with
  | [] => exact absurd rfl h
  | x :: xs =>
    show xs.foldl max x ∈ x :: xs
    rcases foldl_max_mem xs x with h' | h'
    · rw [h']; exact List.mem_cons_self x xs
    · exact List.mem_cons_of_mem x h'

theorem maxDefaultZero_ge (ids : List Int) :
    ∀ i ∈ ids, i ≤ maxDefaultZero ids := by
  match ids with
  | [] => intro i hi; cases hi
  | x :: xs =>
    intro i hi
    rcases List.mem_cons.mp hi with rfl | hi
    · exact le_foldl_max xs i
    · exact mem_le_foldl_max xs x i hi

/-- C6: identifier allocation (`_next_id`) returns `1` on an empty
collection, `1 + max(existing ids)` on a non-empty one (the returned
base really is the maximum: it is an existing id and an upper bound of
all of them), it never fails (it is total), and the allocated id is
strictly greater than every existing id. -/
theorem claim_C6 :
    nextId [] = 1 ∧
    (∀ ids : List Int, ids ≠ [] →
      maxDefaultZero ids ∈ ids ∧
      (∀ i ∈ ids, i ≤ maxDefaultZero ids) ∧
      nextId ids = maxDefaultZero ids + 1) ∧
    (∀ ids : List Int, ∀ i ∈ ids, i < nextId ids) := by
  refine ⟨rfl, fun ids h => ⟨maxDefaultZero_mem ids h, maxDefaultZero_ge ids, rfl⟩, ?_⟩
  intro ids i hi
  have := maxDefaultZero_ge ids i hi
  unfold nextId
  omega

/-- Witness for C6 at a concrete collection. -/
theorem claim_C6_witness :
    ([5, 2, 9] : List Int) ≠ [] ∧
    maxDefaultZero [5, 2, 9] ∈ ([5, 2, 9] : List Int) ∧
    (∀ i ∈ ([5, 2, 9] : List Int), i ≤ maxDefaultZero [5, 2, 9]) ∧
    nextId [5, 2, 9] = maxDefaultZero [5, 2, 9] + 1 :=
  ⟨by decide, claim_C6.2.1 [5, 2, 9] (by decide)⟩

/-! ## Lemmas inverting one assignment-creation attempt -/

theorem addAssignment_error (data : AppState) (course : Course)
    (rawTitle dueInput status : String) (score : Option ℚ) (now : String)
    (e : CreateError) (st : AppState) (sv : Option AppState)
    (h : addAssignment data course rawTitle dueInput status score now =
      (.error e, st, sv)) : st = data ∧ sv = none := by
  simp only [addAssignment] at h
  by_cases ht : pyStrip rawTitle = ""
  · rw [if_pos ht] at h
    injection h with h1 h2; injection h2 with h2 h3
    exact ⟨h2.symm, h3.symm⟩
  · rw [if_neg ht] at h
    cases hdue : parseDateYMD dueInput with
    | none =>
      rw [hdue] at h
      injection h with h1 h2; injection h2 with h2 h3
      exact ⟨h2.symm, h3.symm⟩
    | some due =>
      rw [hdue] at h
      dsimp only at h
      by_cases hst : status ∉ statusOptions
      · rw [if_pos hst] at h
        injection h with h1 h2; injection h2 with h2 h3
        exact ⟨h2.symm, h3.symm⟩
      · rw [if_neg hst] at h
        by_cases hsc : (!scoreOk score) = true
        · rw [if_pos hsc] at h
          injection h with h1 h2; injection h2 with h2 h3
          exact ⟨h2.symm, h3.symm⟩
        · rw [if_neg hsc] at h
          injection h with h1 _
          exact Except.noConfusion h1

theorem addAssignment_ok (data : AppState) (course : Course)
    (rawTitle dueInput status : String) (score : Option ℚ) (now : String)
    (a : Assignment) (st : AppState) (sv : Option AppState)
    (h : addAssignment data course rawTitle dueInput status score now =
      (.ok a, st, sv)) :
    pyStrip rawTitle ≠ "" ∧
    (∃ due, parseDateYMD dueInput = some due ∧ a.due_date = isoDate due) ∧
    status ∈ statusOptions ∧
    scoreOk score = true ∧
    a.id = nextId (data.assignments.map Assignment.id) ∧
    a.course_id = course.id ∧ a.title = pyStrip rawTitle ∧
    a.status = status ∧ a.score = score ∧ a.created_at = now ∧
    st.courses = data.courses ∧
    st.assignments = data.assignments ++ [a] ∧
    sv = some st := by
  simp only [addAssignment] at h
  by_cases ht : pyStrip rawTitle = ""
  · rw [if_pos ht] at h
    injection h with h1 _
    exact Except.noConfusion h1
  · rw [if_neg ht] at h
    cases hdue : parseDateYMD dueInput with
    | none =>
      rw [hdue] at h
      injection h with h1 _
      exact Except.noConfusion h1
    | some due =>
      rw [hdue] at h
      dsimp only at h
      by_cases hst : status ∉ statusOptions
      · rw [if_pos hst] at h
        injection h with h1 _
        exact Except.noConfusion h1
      · rw [if_neg hst] at h
        by_cases hsc : (!scoreOk score) = true
        · rw [if_pos hsc] at h
          injection h with h1 _
          exact Except.noConfusion h1
        · rw [if_neg hsc] at h
          injection h with h1 h2; injection h2 with h2 h3
          injection h1 with h1
          subst h1
          subst h2
          refine ⟨ht, ⟨due, rfl, rfl⟩, by simpa using hst,
            by simpa using hsc, rfl, rfl, rfl, rfl, rfl, rfl, rfl, rfl, h3.symm⟩

/-- C4: score validation (`choose_optional_score`) accepts an absent
score, accepts a present score exactly when `0 ≤ s ≤ 100`, rejects
`-0.01` and `100.01`, accepts exactly `0` and `100`, and consequently
every score stored by a successful assignment creation lies in
`[0, 100]`. -/
theorem scoreOk_some (v : ℚ) : scoreOk (some v) = true ↔ (0 ≤ v ∧ v ≤ 100) := by
  simp [scoreOk]

theorem claim_C4 :
    scoreOk none = true ∧
    (∀ v : ℚ, scoreOk (some v) = true ↔ (0 ≤ v ∧ v ≤ 100)) ∧
    scoreOk (some (-1/100)) = false ∧
    scoreOk (some (10001/100)) = false ∧
    scoreOk (some 0) = true ∧
    scoreOk (some 100) = true ∧
    (∀ data course rawTitle dueInput status score now a st sv,
      addAssignment data course rawTitle dueInput status score now =
        (.ok a, st, sv) →
      ∀ v : ℚ, a.score = some v → 0 ≤ v ∧ v ≤ 100) := by
  refine ⟨rfl, scoreOk_some, ?_, ?_, ?_, ?_, ?_⟩
  · refine Bool.eq_false_iff.mpr fun hb => ?_
    have := (scoreOk_some _).mp hb
    norm_num at this
  · refine Bool.eq_false_iff.mpr fun hb => ?_
    have := (scoreOk_some _).mp hb
    norm_num at this
  · exact (scoreOk_some 0).mpr (by norm_num)
  · exact (scoreOk_some 100).mpr (by norm_num)
  · intro data course rawTitle dueInput status score now a st sv h v hv
    obtain ⟨-, -, -, hscore, -, -, -, -, hs, -⟩ :=
      addAssignment_ok data course rawTitle dueInput status score now a st sv h
    rw [← hs, hv] at hscore
    exact (scoreOk_some v).mp hscore

/-- Witness for C4: a concrete successful creation stores a score inside
the range. -/
theorem claim_C4_witness :
    addAssignment ⟨[⟨1, "CS 361"⟩], []⟩ ⟨1, "CS 361"⟩ "HW1" "2025-03-10"
        "Not Started" (some 92) "2025-03-01T10:00:00" =
      (.ok { id := 1, course_id := 1, title := "HW1",
             due_date := "2025-03-10", status := "Not Started",
             score := some 92, created_at := "2025-03-01T10:00:00" },
        ⟨[⟨1, "CS 361"⟩],
          [{ id := 1, course_id := 1, title := "HW1",
             due_date := "2025-03-10", status := "Not Started",
             score := some 92, created_at := "2025-03-01T10:00:00" }]⟩,
        some ⟨[⟨1, "CS 361"⟩],
          [{ id := 1, course_id := 1, title := "HW1",
             due_date := "2025-03-10", status := "Not Started",
             score := some 92, created_at := "2025-03-01T10:00:00" }]⟩) ∧
    (0 ≤ (92 : ℚ) ∧ (92 : ℚ) ≤ 100) := by
  have hadd : addAssignment ⟨[⟨1, "CS 361"⟩], []⟩ ⟨1, "CS 361"⟩ "HW1" "2025-03-10"
      "Not Started" (some 92) "2025-03-01T10:00:00" =
      (.ok { id := 1, course_id := 1, title := "HW1",
             due_date := "2025-03-10", status := "Not Started",
             score := some 92, created_at := "2025-03-01T10:00:00" },
        ⟨[⟨1, "CS 361"⟩],
          [{ id := 1, course_id := 1, title := "HW1",
             due_date := "2025-03-10", status := "Not Started",
             score := some 92, created_at := "2025-03-01T10:00:00" }]⟩,
        some ⟨[⟨1, "CS 361"⟩],
          [{ id := 1, course_id := 1, title := "HW1",
             due_date := "2025-03-10", status := "Not Started",
             score := some 92, created_at := "2025-03-01T10:00:00" }]⟩) := rfl
  exact ⟨hadd, claim_C4.2.2.2.2.2.2 _ _ _ _ _ _ _ _ _ _ hadd 92 rfl⟩

/-- C8: assignment creation is atomic with respect to validation: an
attempt whose title strips to empty fails with `MissingTitle` leaving
the state unchanged and saving nothing; every failed attempt leaves the
state unchanged and saves nothing; and a successful attempt — the only
mutating outcome — presupposes every validation passed, appends exactly
the new record, and saves the mutated state. -/
theorem claim_C8 :
    ∀ data course rawTitle dueInput status score now,
    (pyStrip rawTitle = "" →
      addAssignment data course rawTitle dueInput status score now =
        (.error .missingTitle, data, none)) ∧
    (∀ e st sv, addAssignment data course rawTitle dueInput status score now =
        (.error e, st, sv) → st = data ∧ sv = none) ∧
    (∀ a st sv, addAssignment data course rawTitle dueInput status score now =
        (.ok a, st, sv) →
      pyStrip rawTitle ≠ "" ∧ (parseDateYMD dueInput).isSome = true ∧
      status ∈ statusOptions ∧ scoreOk score = true ∧
      st.courses = data.courses ∧ st.assignments = data.assignments ++ [a] ∧
      sv = some st) := by
  intro data course rawTitle dueInput status score now
  refine ⟨?_, ?_, ?_⟩
  · intro h
    simp only [addAssignment]
    rw [if_pos h]
  · intro e st sv h
    exact addAssignment_error data course rawTitle dueInput status score now e st sv h
  · intro a st sv h
    obtain ⟨ht, ⟨due, hdue, -⟩, hst, hsc, -, -, -, -, -, -, hc, hap, hsv⟩ :=
      addAssignment_ok data course rawTitle dueInput status score now a st sv h
    exact ⟨ht, by rw [hdue]; rfl, hst, hsc, hc, hap, hsv⟩

/-- Witness for C8: a whitespace-only title is rejected with no
mutation and nothing saved. -/
theorem claim_C8_witness :
    addAssignment ⟨[⟨1, "CS 361"⟩], []⟩ ⟨1, "CS 361"⟩ "   " "2025-03-10"
        "Not Started" none "2025-03-01T10:00:00" =
      (.error .missingTitle, ⟨[⟨1, "CS 361"⟩], []⟩, none) :=
  (claim_C8 ⟨[⟨1, "CS 361"⟩], []⟩ ⟨1, "CS 361"⟩ "   " "2025-03-10"
    "Not Started" none "2025-03-01T10:00:00").1 rfl

/-- C1: the grade calculation selects exactly the assignments of the
chosen course that have a recorded score; an empty selection yields the
distinct "no data" result (`none`, never a zero grade); a non-empty
selection yields exactly the selected scores and their full-precision
arithmetic mean `sum / count`; and the state (so every stored score) is
returned unchanged. -/
theorem claim_C1 :
    ∀ (data : AppState) (course : Course),
    (∀ a, a ∈ scoredFor data course ↔
       a ∈ data.assignments ∧ a.course_id = course.id ∧ a.score.isSome = true) ∧
    ((currentGradeFlow data course).1 = none ↔ scoredFor data course = []) ∧
    (∀ scores avg, (currentGradeFlow data course).1 = some (scores, avg) →
       scores = (scoredFor data course).filterMap Assignment.score ∧
       scores.length = (scoredFor data course).length ∧
       scores ≠ [] ∧
       avg = scores.sum / (scores.length : ℚ)) ∧
    (currentGradeFlow data course).2 = data := by
  intro data course
  have hlen : ∀ l : List Assignment, (∀ a ∈ l, a.score.isSome = true) →
      (l.filterMap Assignment.score).length = l.length := by
    intro l
    induction l with
    | nil => intro _; rfl
    | cons a l ih =>
      intro h
      have ha := h a (List.mem_cons_self a l)
      obtain ⟨v, hv⟩ := Option.isSome_iff_exists.mp ha
      simp only [List.filterMap_cons, hv, List.length_cons]
      rw [ih fun b hb => h b (List.mem_cons_of_mem a hb)]
  have hmem : ∀ a, a ∈ scoredFor data course ↔
      a ∈ data.assignments ∧ a.course_id = course.id ∧ a.score.isSome = true := by
    intro a
    simp [scoredFor, List.mem_filter, Bool.and_eq_true, beq_iff_eq, and_assoc]
  refine ⟨hmem, ?_, ?_, ?_⟩
  · by_cases h : (scoredFor data course).isEmpty = true
    · have hnil := List.isEmpty_iff.mp h
      simp [currentGradeFlow, if_pos h, hnil]
    · simp only [currentGradeFlow, if_neg h]
      constructor
      · intro hcon; exact Option.noConfusion hcon
      · intro hnil; exact absurd (by simp [hnil] : (scoredFor data course).isEmpty = true) h
  · intro scores avg hsome
    by_cases h : (scoredFor data course).isEmpty = true
    · rw [currentGradeFlow] at hsome
      rw [if_pos h] at hsome
      exact Option.noConfusion hsome
    · rw [currentGradeFlow] at hsome
      rw [if_neg h] at hsome
      injection hsome with hpair
      injection hpair with hscores havg
      subst hscores
      refine ⟨rfl, hlen _ ?_, ?_, havg.symm⟩
      · intro a ha
        exact ((hmem a).mp ha).2.2
      · intro hnil
        have : (scoredFor data course).length = 0 := by
          rw [← hlen _ fun a ha => ((hmem a).mp ha).2.2, hnil]
          rfl
        exact h (by simpa [List.isEmpty_iff, List.length_eq_zero] using this)
  · by_cases h : (scoredFor data course).isEmpty = true
    · simp only [currentGradeFlow, if_pos h]
    · simp only [currentGradeFlow, if_neg h]

/-- Witness for C1: the spec's own example — scores 80 and 90 give the
mean exactly 85, and the state is returned unchanged. -/
theorem claim_C1_witness :
    ([80, 90] : List ℚ) ≠ [] ∧
    (currentGradeFlow
        ⟨[⟨1, "MTH 265"⟩],
         [⟨1, 1, "HW1", "2025-03-10", "Not Started", some 80, "t1"⟩,
          ⟨2, 1, "HW2", "2025-03-11", "Not Started", some 90, "t2"⟩]⟩
        ⟨1, "MTH 265"⟩).1 = some ([80, 90], 85) := by
  have h := (claim_C1
      ⟨[⟨1, "MTH 265"⟩],
       [⟨1, 1, "HW1", "2025-03-10", "Not Started", some 80, "t1"⟩,
        ⟨2, 1, "HW2", "2025-03-11", "Not Started", some 90, "t2"⟩]⟩
      ⟨1, "MTH 265"⟩).2.2.1 [80, 90]
      (([80, 90] : List ℚ).sum / (([80, 90] : List ℚ).length : ℚ)) rfl
  refine ⟨h.2.2.1, ?_⟩
  have hc : (currentGradeFlow
      ⟨[⟨1, "MTH 265"⟩],
       [⟨1, 1, "HW1", "2025-03-10", "Not Started", some 80, "t1"⟩,
        ⟨2, 1, "HW2", "2025-03-11", "Not Started", some 90, "t2"⟩]⟩
      ⟨1, "MTH 265"⟩).1 =
      some ([80, 90], ([80, 90] : List ℚ).sum / (([80, 90] : List ℚ).length : ℚ)) := rfl
  rw [hc]
  norm_num

/-- C3: with `only_incomplete = true` the sorted listing never contains
a `Completed` assignment; with `only_incomplete = false` it contains
exactly the assignments of the store. -/
theorem claim_C3 :
    ∀ data : AppState,
    (∀ a ∈ listAssignmentsSorted data true, a.status ≠ "Completed") ∧
    (∀ a, a ∈ listAssignmentsSorted data false ↔ a ∈ data.assignments) := by
  intro data
  constructor
  · intro a ha
    have : a ∈ filterItems data.assignments true := by
      simpa [listAssignmentsSorted] using ha
    simp only [filterItems, if_pos rfl] at this
    have := (List.mem_filter.mp this).2
    simpa [bne_iff_ne] using this
  · intro a
    simp [listAssignmentsSorted, filterItems]

/-- Witness for C3 at a concrete store with one completed and one
in-progress assignment. -/
theorem claim_C3_witness :
    Assignment.status ⟨1, 1, "HW1", "2025-03-10", "In Progress", none, "t1"⟩ ≠
      "Completed" :=
  (claim_C3 ⟨[⟨1, "CS 361"⟩],
    [⟨1, 1, "HW1", "2025-03-10", "In Progress", none, "t1"⟩,
     ⟨2, 1, "HW2", "2025-03-09", "Completed", none, "t2"⟩]⟩).1
    ⟨1, 1, "HW1", "2025-03-10", "In Progress", none, "t1"⟩ (by decide)

/-! ## Course resolution (C5) -/

theorem exists_find?_of_mem {α} {p : α → Bool} {l : List α}
    (h : ∃ x ∈ l, p x = true) : ∃ y, l.find? p = some y := by
  induction l with
  | nil => obtain ⟨x, hx, -⟩ := h; cases hx
  | cons a l ih =>
    by_cases hp : p a = true
    · exact ⟨a, List.find?_cons_of_pos l hp⟩
    · rw [List.find?_cons_of_neg l (by simpa using hp)]
      refine ih ?_
      obtain ⟨x, hx, hpx⟩ := h
      rcases List.mem_cons.mp hx with rfl | hx
      · exact absurd hpx hp
      · exact ⟨x, hx, hpx⟩

/-- C5: course resolution by name is idempotent up to normalization:
when some existing course has the same normalized (stripped,
case-folded) name as the stripped input, `choose_or_create_course`
returns such an existing course, leaves the state unchanged, and saves
nothing. -/
theorem claim_C5 :
    ∀ (data : AppState) (rawName : String),
    pyStrip rawName ≠ "" →
    (∃ c ∈ data.courses, normName c.name = normName (pyStrip rawName)) →
    ∃ c₀ ∈ data.courses,
      normName c₀.name = normName (pyStrip rawName) ∧
      chooseOrCreateCourse data rawName = some (c₀, data, none) := by
  intro data rawName hne hex
  have hfind : ∃ c₀, findCourseByName data (pyStrip rawName) = some c₀ := by
    refine exists_find?_of_mem ?_
    obtain ⟨c, hc, he⟩ := hex
    exact ⟨c, hc, by simpa [beq_iff_eq] using he⟩
  obtain ⟨c₀, hc₀⟩ := hfind
  have hmem : c₀ ∈ data.courses := List.mem_of_find?_eq_some hc₀
  have hpred : normName c₀.name = normName (pyStrip rawName) := by
    have := List.find?_some hc₀
    simpa [beq_iff_eq] using this
  refine ⟨c₀, hmem, hpred, ?_⟩
  simp only [chooseOrCreateCourse]
  rw [if_neg hne, hc₀]

/-- Witness for C5: resolving `"CS 101"` creates the course; resolving
`"  cs 101  "` afterwards returns the same course with the state
unchanged and nothing saved. -/
theorem claim_C5_witness :
    chooseOrCreateCourse ⟨[], []⟩ "CS 101" =
      some (⟨1, "CS 101"⟩, ⟨[⟨1, "CS 101"⟩], []⟩, some ⟨[⟨1, "CS 101"⟩], []⟩) ∧
    ∃ c₀ ∈ (AppState.mk [⟨1, "CS 101"⟩] []).courses,
      normName c₀.name = normName (pyStrip "  cs 101  ") ∧
      chooseOrCreateCourse ⟨[⟨1, "CS 101"⟩], []⟩ "  cs 101  " =
        some (c₀, ⟨[⟨1, "CS 101"⟩], []⟩, none) :=
  ⟨rfl, claim_C5 ⟨[⟨1, "CS 101"⟩], []⟩ "  cs 101  " (by decide)
    ⟨⟨1, "CS 101"⟩, by decide, by decide⟩⟩

/-! ## Deadline ordering (C2) -/

theorem daysInMonth_le_31 (y m : Nat) : daysInMonth y m ≤ 31 := by
  unfold daysInMonth
  split_ifs <;> omega

theorem parse_bounds (s : String) (d : CalDate)
    (h : parseDateYMD s = some d) :
    1 ≤ d.y ∧ d.y ≤ 9999 ∧ 1 ≤ d.m ∧ d.m ≤ 12 ∧ 1 ≤ d.d ∧ d.d ≤ 31 := by
  simp only [parseDateYMD] at h
  split at h
  · split at h
    · split at h
      · rename_i hrange
        injection h with h
        subst h
        simp only [Bool.and_eq_true, decide_eq_true_eq] at hrange
        exact ⟨hrange.1.1.1, hrange.1.1.2, hrange.1.2.1, hrange.1.2.2,
          hrange.2.1, le_trans hrange.2.2 (daysInMonth_le_31 _ _)⟩
      · exact Option.noConfusion h
    · exact Option.noConfusion h
  · exact Option.noConfusion h

theorem sortDate_of_unparseable (a : Assignment)
    (h : parseDateYMD a.due_date = none) : sortDate a = dateMax := by
  simp [sortDate, h]

theorem sortDate_le_dateMax (a : Assignment) :
    dateLt (sortDate a) dateMax ∨ sortDate a = dateMax := by
  unfold sortDate
  cases hp : parseDateYMD a.due_date with
  | none => right; rfl
  | some d =>
    obtain ⟨h1, h2, h3, h4, h5, h6⟩ := parse_bounds _ _ hp
    simp only [Option.getD_some]
    rcases d with ⟨y, m, dd⟩
    simp only [dateLt, dateMax, CalDate.mk.injEq] at *
    omega

theorem keyLe_and_ne (a b : Assignment) (h : keyLe a b)
    (hne : a.id ≠ b.id) : keyLt a b := by
  unfold keyLe at h
  unfold keyLt
  rcases h with h | ⟨he, hle⟩
  · exact Or.inl h
  · exact Or.inr ⟨he, lt_of_le_of_ne hle hne⟩

/-- C2: the sorted listing is a permutation of the filtered store,
non-decreasing in the key `(parsed due date, id)` where an unparseable
due date counts as the maximum representable date (`date.max`, an upper
bound of every parseable date, so such records sort last) and ties of
equal date are broken by ascending id; when the listed ids are distinct
the ordering is strict between any two listed assignments, i.e. a
deterministic strict total order. -/
theorem claim_C2 :
    ∀ (data : AppState) (only_incomplete : Bool),
    (listAssignmentsSorted data only_incomplete).Perm
      (filterItems data.assignments only_incomplete) ∧
    (listAssignmentsSorted data only_incomplete).Sorted keyLe ∧
    (∀ a : Assignment, parseDateYMD a.due_date = none → sortDate a = dateMax) ∧
    (∀ a : Assignment, dateLt (sortDate a) dateMax ∨ sortDate a = dateMax) ∧
    (((filterItems data.assignments only_incomplete).map Assignment.id).Nodup →
      (listAssignmentsSorted data only_incomplete).Pairwise keyLt) := by
  intro data b
  refine ⟨List.perm_insertionSort keyLe _, List.sorted_insertionSort keyLe _,
    sortDate_of_unparseable, sortDate_le_dateMax, ?_⟩
  intro hn
  have hperm := List.perm_insertionSort keyLe
    (filterItems data.assignments b)
  have hsorted : (listAssignmentsSorted data b).Pairwise keyLe :=
    List.sorted_insertionSort keyLe _
  have hn' : ((listAssignmentsSorted data b).map Assignment.id).Nodup :=
    ((hperm.map Assignment.id).nodup_iff).mpr hn
  have hne : (listAssignmentsSorted data b).Pairwise
      (fun x y => x.id ≠ y.id) := List.pairwise_map.mp hn'
  exact (hsorted.and hne).imp fun h => keyLe_and_ne _ _ h.1 h.2

/-- Witness for C2: a store with a tie on due date and an unparseable
due date; the listing sorts the tie by id and the bad date last. -/
theorem claim_C2_witness :
    listAssignmentsSorted
      ⟨[⟨1, "c"⟩],
       [⟨3, 1, "A", "2025-03-12", "Not Started", none, "t"⟩,
        ⟨1, 1, "B", "bad-date", "Not Started", none, "t"⟩,
        ⟨2, 1, "C", "2025-03-12", "Not Started", none, "t"⟩]⟩ false =
      [⟨2, 1, "C", "2025-03-12", "Not Started", none, "t"⟩,
       ⟨3, 1, "A", "2025-03-12", "Not Started", none, "t"⟩,
       ⟨1, 1, "B", "bad-date", "Not Started", none, "t"⟩] ∧
    (listAssignmentsSorted
      ⟨[⟨1, "c"⟩],
       [⟨3, 1, "A", "2025-03-12", "Not Started", none, "t"⟩,
        ⟨1, 1, "B", "bad-date", "Not Started", none, "t"⟩,
        ⟨2, 1, "C", "2025-03-12", "Not Started", none, "t"⟩]⟩ false).Pairwise
      keyLt :=
  ⟨rfl, (claim_C2
      ⟨[⟨1, "c"⟩],
       [⟨3, 1, "A", "2025-03-12", "Not Started", none, "t"⟩,
        ⟨1, 1, "B", "bad-date", "Not Started", none, "t"⟩,
        ⟨2, 1, "C", "2025-03-12", "Not Started", none, "t"⟩]⟩ false).2.2.2.2
    (by decide)⟩

/-! ## Persistence lemmas -/

theorem find?_append_of_none {α} (p : α → Bool) (l₁ l₂ : List α)
    (h : l₁.find? p = none) : (l₁ ++ l₂).find? p = l₂.find? p := by
  induction l₁ with
  | nil => rfl
  | cons a l ih =>
    by_cases hp : p a = true
    · rw [List.find?_cons_of_pos l hp] at h
      exact Option.noConfusion h
    · rw [List.find?_cons_of_neg l (by simpa using hp)] at h
      rw [List.cons_append, List.find?_cons_of_neg _ (by simpa using hp)]
      exact ih h

theorem find?_append_of_some {α} (p : α → Bool) (l₁ l₂ : List α) (a : α)
    (h : l₁.find? p = some a) : (l₁ ++ l₂).find? p = some a := by
  induction l₁ with
  | nil => exact Option.noConfusion h
  | cons b l ih =>
    by_cases hp : p b = true
    · rw [List.find?_cons_of_pos l hp] at h
      rw [List.cons_append, List.find?_cons_of_pos _ hp]
      exact h
    · rw [List.find?_cons_of_neg l (by simpa using hp)] at h
      rw [List.cons_append, List.find?_cons_of_neg _ (by simpa using hp)]
      exact ih h

theorem find?_eq_none_of_any_false {α} (p : α → Bool) (l : List α)
    (h : l.any p = false) : l.find? p = none := by
  induction l with
  | nil => rfl
  | cons a l ih =>
    simp only [List.any_cons, Bool.or_eq_false_iff] at h
    rw [List.find?_cons_of_neg _ (by simp [h.1])]
    exact ih h.2

theorem containsKey_setdefault_self (k : String) (v : Json)
    (fields : List (String × Json)) :
    containsKey k (setdefault k v fields) = true := by
  unfold setdefault
  by_cases h : containsKey k fields = true
  · rw [if_pos h]; exact h
  · rw [if_neg h]
    simp [containsKey, List.any_append]

theorem containsKey_setdefault_mono (k k' : String) (v : Json)
    (fields : List (String × Json)) (h : containsKey k fields = true) :
    containsKey k (setdefault k' v fields) = true := by
  unfold setdefault
  split
  · exact h
  · simp only [containsKey, List.any_append] at *
    simp [h]

theorem lookup_setdefault_of_not (k : String) (v : Json)
    (fields : List (String × Json)) (h : containsKey k fields = false) :
    lookupKey k (setdefault k v fields) = some v := by
  unfold setdefault
  rw [if_neg (by simp [h])]
  unfold lookupKey
  rw [find?_append_of_none _ _ _ (find?_eq_none_of_any_false _ _ h)]
  rw [List.find?_cons_of_pos _ (by simp)]
  rfl

theorem lookup_setdefault_of_some (k k' : String) (v' : Json)
    (fields : List (String × Json)) (v : Json)
    (h : lookupKey k fields = some v) :
    lookupKey k (setdefault k' v' fields) = some v := by
  unfold setdefault
  split
  · exact h
  · unfold lookupKey at h ⊢
    obtain ⟨kv, hkv, hv⟩ := Option.map_eq_some'.mp h
    rw [find?_append_of_some _ _ _ _ hkv]
    simp [hv]

theorem containsKey_setdefault_ne (k k' : String) (v : Json)
    (fields : List (String × Json)) (h : containsKey k fields = false)
    (hne : (k' == k) = false) :
    containsKey k (setdefault k' v fields) = false := by
  unfold setdefault
  split
  · exact h
  · simp only [containsKey, List.any_append] at *
    simp [h, hne]

theorem loadData_ok_obj (file : Option (Option Json)) (j : Json)
    (h : loadData file = .ok j) :
    ∃ fs, j = .obj fs ∧ containsKey "courses" fs = true ∧
      containsKey "assignments" fs = true := by
  match file with
  | none =>
    injection h with h
    exact ⟨_, h.symm, rfl, rfl⟩
  | some none =>
    injection h with h
    exact ⟨_, h.symm, rfl, rfl⟩
  | some (some jj) =>
    match jj with
    | .null => exact Except.noConfusion h
    | .bool _ => exact Except.noConfusion h
    | .num _ => exact Except.noConfusion h
    | .str _ => exact Except.noConfusion h
    | .arr _ => exact Except.noConfusion h
    | .obj fields =>
      injection h with h
      refine ⟨_, h.symm, ?_, containsKey_setdefault_self _ _ _⟩
      exact containsKey_setdefault_mono _ _ _ _
        (containsKey_setdefault_self _ _ _)

/-- C7 counterexample: a durable store whose content parses to a JSON
array (valid JSON, not a record) makes `_load_data` raise an uncaught
`AttributeError` instead of returning a state — so load can fail. -/
theorem claim_C7_cex :
    loadData (some (some (Json.arr []))) = .error "AttributeError" := rfl

/-- C7 (amended): load returns the empty state when no durable store
exists and when the content cannot be parsed, raising no error in those
cases, and succeeds on every content parsing to a record; but content
parsing to a non-record JSON value makes load fail (it is not total). -/
theorem claim_C7 :
    loadData none = .ok emptyStateJson ∧
    loadData (some none) = .ok emptyStateJson ∧
    (∀ fields, ∃ fields2,
      loadData (some (some (.obj fields))) = .ok (.obj fields2)) ∧
    (∀ j : Json, (∀ fields, j ≠ .obj fields) →
      loadData (some (some j)) = .error "AttributeError") := by
  refine ⟨rfl, rfl, fun fields => ⟨_, rfl⟩, ?_⟩
  intro j hj
  match j with
  | .null => rfl
  | .bool _ => rfl
  | .num _ => rfl
  | .str _ => rfl
  | .arr _ => rfl
  | .obj fs => exact absurd rfl (hj fs)

/-- Witness for C7 at a concrete non-record content. -/
theorem claim_C7_witness :
    loadData (some (some (Json.num 0))) = .error "AttributeError" :=
  claim_C7.2.2.2 (Json.num 0) (fun _ h => Json.noConfusion h)

/-- C10: content parsing to a record is loaded with each of the
`courses` / `assignments` keys defaulted to an empty list when missing
and kept unchanged when present, and every state load returns has both
keys. -/
theorem claim_C10 :
    ∀ fields : List (String × Json),
    loadData (some (some (.obj fields))) =
      .ok (.obj (setdefault "assignments" (.arr [])
        (setdefault "courses" (.arr []) fields))) ∧
    (containsKey "courses" fields = false →
      lookupKey "courses" (setdefault "assignments" (.arr [])
        (setdefault "courses" (.arr []) fields)) = some (.arr [])) ∧
    (containsKey "assignments" fields = false →
      lookupKey "assignments" (setdefault "assignments" (.arr [])
        (setdefault "courses" (.arr []) fields)) = some (.arr [])) ∧
    (∀ v, lookupKey "courses" fields = some v →
      lookupKey "courses" (setdefault "assignments" (.arr [])
        (setdefault "courses" (.arr []) fields)) = some v) ∧
    (∀ v, lookupKey "assignments" fields = some v →
      lookupKey "assignments" (setdefault "assignments" (.arr [])
        (setdefault "courses" (.arr []) fields)) = some v) ∧
    (∀ (file : Option (Option Json)) (j : Json), loadData file = .ok j →
      ∃ fs, j = .obj fs ∧ containsKey "courses" fs = true ∧
        containsKey "assignments" fs = true) := by
  intro fields
  refine ⟨rfl, ?_, ?_, ?_, ?_, loadData_ok_obj⟩
  · intro h
    exact lookup_setdefault_of_some _ _ _ _ _
      (lookup_setdefault_of_not _ _ _ h)
  · intro h
    refine lookup_setdefault_of_not _ _ _ ?_
    exact containsKey_setdefault_ne _ _ _ _ h rfl
  · intro v h
    exact lookup_setdefault_of_some _ _ _ _ _
      (lookup_setdefault_of_some _ _ _ _ _ h)
  · intro v h
    exact lookup_setdefault_of_some _ _ _ _ _
      (lookup_setdefault_of_some _ _ _ _ _ h)

/-- Witness for C10: a record missing both keys gets them filled with
empty lists, other fields untouched. -/
theorem claim_C10_witness :
    loadData (some (some (.obj [("extra", Json.num 1)]))) =
      .ok (.obj [("extra", Json.num 1), ("courses", Json.arr []),
        ("assignments", Json.arr [])]) ∧
    lookupKey "courses" (setdefault "assignments" (.arr [])
      (setdefault "courses" (.arr []) [("extra", Json.num 1)])) =
      some (.arr []) :=
  ⟨(claim_C10 [("extra", Json.num 1)]).1.trans rfl,
   (claim_C10 [("extra", Json.num 1)]).2.1 rfl⟩

/-! ## Save/load round trip (C9) -/

theorem encodeCourse_injective : Function.Injective encodeCourse := by
  intro a b h
  rcases a with ⟨ia, na⟩
  rcases b with ⟨ib, nb⟩
  simp only [encodeCourse, Json.obj.injEq, List.cons.injEq, Prod.mk.injEq,
    Json.num.injEq, Json.str.injEq, and_true, true_and] at h
  obtain ⟨hid, hname⟩ := h
  have : ia = ib := by exact_mod_cast hid
  subst this
  subst hname
  rfl

theorem encodeAssignment_injective : Function.Injective encodeAssignment := by
  intro a b h
  rcases a with ⟨i1, c1, t1, d1, s1, sc1, cr1⟩
  rcases b with ⟨i2, c2, t2, d2, s2, sc2, cr2⟩
  simp only [encodeAssignment, Json.obj.injEq, List.cons.injEq, Prod.mk.injEq,
    Json.num.injEq, Json.str.injEq, and_true, true_and] at h
  obtain ⟨hid, hcid, ht, hd, hs, hsc, hcr⟩ := h
  have h1 : i1 = i2 := by exact_mod_cast hid
  have h2 : c1 = c2 := by exact_mod_cast hcid
  have h3 : sc1 = sc2 := by
    cases sc1 with
    | none =>
      cases sc2 with
      | none => rfl
      | some w => exact Json.noConfusion hsc
    | some v =>
      cases sc2 with
      | none => exact Json.noConfusion hsc
      | some w => injection hsc with hvw; rw [hvw]
  subst h1; subst h2; subst h3; subst ht; subst hd; subst hs; subst hcr
  rfl

/-- C9: saving an encoded state and loading it back returns exactly the
saved state (`setdefault` is the identity on it, since both collections
are present), and the encoding is injective, so equal encodings mean
field-for-field equal courses and assignments. -/
theorem claim_C9 :
    (∀ st : AppState,
      loadData (saveData (encodeState st)) = .ok (encodeState st)) ∧
    (∀ s t : AppState, encodeState s = encodeState t → s = t) := by
  constructor
  · intro st
    rfl
  · intro s t h
    rcases s with ⟨cs, asg⟩
    rcases t with ⟨ct, bt⟩
    simp only [encodeState, Json.obj.injEq, List.cons.injEq, Prod.mk.injEq,
      Json.arr.injEq, and_true, true_and] at h
    obtain ⟨hc, ha⟩ := h
    have h1 := List.map_injective_iff.mpr encodeCourse_injective hc
    have h2 := List.map_injective_iff.mpr encodeAssignment_injective ha
    subst h1; subst h2
    rfl

/-- Witness for C9 at a concrete state. -/
theorem claim_C9_witness :
    loadData (saveData (encodeState ⟨[⟨1, "CS 361"⟩],
        [⟨1, 1, "HW1", "2025-03-10", "Not Started", none, "t"⟩]⟩)) =
      .ok (encodeState ⟨[⟨1, "CS 361"⟩],
        [⟨1, 1, "HW1", "2025-03-10", "Not Started", none, "t"⟩]⟩) ∧
    (AppState.mk [] [] = AppState.mk [] []) :=
  ⟨claim_C9.1 _, claim_C9.2 ⟨[], []⟩ ⟨[], []⟩ rfl⟩

end AcademicHelper
